import Mathlib

/-!
Verification development for the Twitch proxy server in `src/server.js`.

The JavaScript source is shallowly embedded: pure functions become Lean
functions, the single mutable token slot becomes explicit state passing,
`Date.now()` readings and upstream HTTP responses become explicit
parameters, and the `Math.random()` draw of the URL builders becomes an
explicit argument.  JavaScript strings are modelled as Lean `String`
(lists of unicode scalar values); `URLSearchParams` serialization and
`encodeURIComponent` are modelled byte-precisely over the UTF-8 encoding.
-/

namespace TwitchProxy

/-! ### Percent encoding infrastructure

Models of `encodeURIComponent` and of the WHATWG
`application/x-www-form-urlencoded` serializer used by
`URLSearchParams.toString`. -/

/-- Uppercase hexadecimal digit for a value below 16. -/
def hexDigit (n : Nat) : Char :=
  if n < 10 then Char.ofNat (48 + n) else Char.ofNat (55 + n)

/-- Numeric value of an uppercase hexadecimal digit. -/
def hexVal (c : Char) : Nat :=
  if 65 ≤ c.toNat then c.toNat - 55 else c.toNat - 48

/-- Bytes kept verbatim by the `application/x-www-form-urlencoded`
serializer: ASCII alphanumerics and `*`, `-`, `.`, `_` (byte values
42, 45, 46, 95). -/
def formSafe (b : Nat) : Bool :=
  (48 ≤ b && b ≤ 57) || (65 ≤ b && b ≤ 90) || (97 ≤ b && b ≤ 122) ||
    b == 42 || b == 45 || b == 46 || b == 95

/-- Bytes kept verbatim by `encodeURIComponent`: ASCII alphanumerics and
`! ' ( ) * - . _ ~` (byte values 33, 39, 40, 41, 42, 45, 46, 95, 126). -/
def uriSafe (b : Nat) : Bool :=
  (48 ≤ b && b ≤ 57) || (65 ≤ b && b ≤ 90) || (97 ≤ b && b ≤ 122) ||
    b == 33 || b == 39 || b == 40 || b == 41 || b == 42 || b == 45 ||
    b == 46 || b == 95 || b == 126

/-- UTF-8 byte sequence of a single unicode scalar value. -/
def utf8Char (c : Char) : List Nat :=
  if c.toNat < 128 then [c.toNat]
  else if c.toNat < 2048 then
    [192 + c.toNat / 64, 128 + c.toNat % 64]
  else if c.toNat < 65536 then
    [224 + c.toNat / 4096, 128 + c.toNat / 64 % 64, 128 + c.toNat % 64]
  else
    [240 + c.toNat / 262144, 128 + c.toNat / 4096 % 64, 128 + c.toNat / 64 % 64,
      128 + c.toNat % 64]

/-- UTF-8 byte sequence of a list of scalar values. -/
def utf8Encode : List Char → List Nat
  | [] => []
  | c :: cs => utf8Char c ++ utf8Encode cs

/-- UTF-8 decoding state machine: `pending` continuation bytes remain for
the code point accumulated so far in `acc`. -/
def utf8DecodeGo : Nat → Nat → List Nat → List Char
  | _, _, [] => []
  | pending, acc, b :: bs =>
    if pending = 0 then
      if b < 128 then Char.ofNat b :: utf8DecodeGo 0 0 bs
      else if b < 224 then utf8DecodeGo 1 (b - 192) bs
      else if b < 240 then utf8DecodeGo 2 (b - 224) bs
      else utf8DecodeGo 3 (b - 240) bs
    else if pending = 1 then
      Char.ofNat (acc * 64 + (b - 128)) :: utf8DecodeGo 0 0 bs
    else
      utf8DecodeGo (pending - 1) (acc * 64 + (b - 128)) bs

/-- UTF-8 decoder (inverse of `utf8Encode` on well-formed input). -/
def utf8Decode (bs : List Nat) : List Char :=
  utf8DecodeGo 0 0 bs

/-- Percent-encode a single byte.  `plusSpace` selects the
form-urlencoded convention of serializing a space as `+`. -/
def percentEncodeByte (safe : Nat → Bool) (plusSpace : Bool) (b : Nat) : List Char :=
  if safe b = true then [Char.ofNat b]
  else if plusSpace = true ∧ b = 32 then ['+']
  else ['%', hexDigit (b / 16), hexDigit (b % 16)]

/-- Percent-encode a byte sequence. -/
def percentEncodeBytes (safe : Nat → Bool) (plusSpace : Bool) : List Nat → List Char
  | [] => []
  | b :: bs => percentEncodeByte safe plusSpace b ++ percentEncodeBytes safe plusSpace bs

/-- Percent-decoding state machine: `mode` 0 scans plain characters,
mode 1 has consumed `%`, mode 2 has consumed `%` and the high nibble
(kept in `acc`). -/
def percentDecodeGo (plusSpace : Bool) : Nat → Nat → List Char → List Nat
  | _, _, [] => []
  | mode, acc, c :: cs =>
    if mode = 0 then
      if plusSpace = true ∧ c = '+' then 32 :: percentDecodeGo plusSpace 0 0 cs
      else if c = '%' then percentDecodeGo plusSpace 1 0 cs
      else c.toNat :: percentDecodeGo plusSpace 0 0 cs
    else if mode = 1 then percentDecodeGo plusSpace 2 (hexVal c) cs
    else (acc * 16 + hexVal c) :: percentDecodeGo plusSpace 0 0 cs

/-- Percent-decode a character sequence back to bytes. -/
def percentDecodeBytes (plusSpace : Bool) (cs : List Char) : List Nat :=
  percentDecodeGo plusSpace 0 0 cs

/-- Model of percent-encoding a JavaScript string as an
`application/x-www-form-urlencoded` value (`URLSearchParams`). -/
def formEncode (s : String) : String :=
  ⟨percentEncodeBytes formSafe true (utf8Encode s.data)⟩

/-- Inverse of `formEncode`. -/
def formDecode (s : String) : String :=
  ⟨utf8Decode (percentDecodeBytes true s.data)⟩

/-- Model of `encodeURIComponent`. -/
def encodeURIComponent (s : String) : String :=
  ⟨percentEncodeBytes uriSafe false (utf8Encode s.data)⟩

/-- Model of `decodeURIComponent` (inverse of `encodeURIComponent`). -/
def decodeURIComponent (s : String) : String :=
  ⟨utf8Decode (percentDecodeBytes false s.data)⟩

/-! ### Round-trip properties of the encoders -/

theorem char_toNat_valid (c : Char) :
    c.toNat < 55296 ∨ (57344 ≤ c.toNat ∧ c.toNat < 1114112) :=
  c.valid

theorem char_toNat_lt (c : Char) : c.toNat < 1114112 := by
  rcases char_toNat_valid c with h | ⟨_, h⟩ <;> omega

theorem utf8Char_mem_lt (c : Char) : ∀ b ∈ utf8Char c, b < 256 := by
  have h := char_toNat_lt c
  intro b hb
  simp only [utf8Char] at hb
  split at hb
  · simp at hb; omega
  · split at hb
    · simp at hb; omega
    · split at hb
      · simp at hb; omega
      · simp at hb; omega

theorem utf8Encode_mem_lt : ∀ cs : List Char, ∀ b ∈ utf8Encode cs, b < 256
  | [], _, hb => by simp [utf8Encode] at hb
  | c :: cs, b, hb => by
    simp only [utf8Encode, List.mem_append] at hb
    rcases hb with hb | hb
    · exact utf8Char_mem_lt c b hb
    · exact utf8Encode_mem_lt cs b hb

theorem utf8DecodeGo_ascii (b : Nat) (bs : List Nat) (h : b < 128) :
    utf8DecodeGo 0 0 (b :: bs) = Char.ofNat b :: utf8DecodeGo 0 0 bs := by
  simp [utf8DecodeGo, h]

theorem utf8DecodeGo_lead2 (b : Nat) (bs : List Nat) (h1 : ¬ b < 128) (h2 : b < 224) :
    utf8DecodeGo 0 0 (b :: bs) = utf8DecodeGo 1 (b - 192) bs := by
  simp [utf8DecodeGo, h1, h2]

theorem utf8DecodeGo_lead3 (b : Nat) (bs : List Nat) (h1 : ¬ b < 128) (h2 : ¬ b < 224)
    (h3 : b < 240) :
    utf8DecodeGo 0 0 (b :: bs) = utf8DecodeGo 2 (b - 224) bs := by
  simp [utf8DecodeGo, h1, h2, h3]

theorem utf8DecodeGo_lead4 (b : Nat) (bs : List Nat) (h1 : ¬ b < 128) (h2 : ¬ b < 224)
    (h3 : ¬ b < 240) :
    utf8DecodeGo 0 0 (b :: bs) = utf8DecodeGo 3 (b - 240) bs := by
  simp [utf8DecodeGo, h1, h2, h3]

theorem utf8DecodeGo_cont1 (acc b : Nat) (bs : List Nat) :
    utf8DecodeGo 1 acc (b :: bs) = Char.ofNat (acc * 64 + (b - 128)) :: utf8DecodeGo 0 0 bs := by
  simp [utf8DecodeGo]

theorem utf8DecodeGo_cont2 (acc b : Nat) (bs : List Nat) :
    utf8DecodeGo 2 acc (b :: bs) = utf8DecodeGo 1 (acc * 64 + (b - 128)) bs := by
  simp [utf8DecodeGo]

theorem utf8DecodeGo_cont3 (acc b : Nat) (bs : List Nat) :
    utf8DecodeGo 3 acc (b :: bs) = utf8DecodeGo 2 (acc * 64 + (b - 128)) bs := by
  simp [utf8DecodeGo]

theorem utf8DecodeGo_utf8Char (c : Char) (rest : List Nat) :
    utf8DecodeGo 0 0 (utf8Char c ++ rest) = c :: utf8DecodeGo 0 0 rest := by
  have hval := char_toNat_lt c
  have hofn : Char.ofNat c.toNat = c := Char.ofNat_toNat c
  unfold utf8Char
  by_cases h1 : c.toNat < 128
  · rw [if_pos h1]
    simp only [List.cons_append, List.nil_append]
    rw [utf8DecodeGo_ascii _ _ h1, hofn]
  · rw [if_neg h1]
    by_cases h2 : c.toNat < 2048
    · rw [if_pos h2]
      simp only [List.cons_append, List.nil_append]
      rw [utf8DecodeGo_lead2 _ _ (by omega) (by omega), utf8DecodeGo_cont1]
      have harg : (192 + c.toNat / 64 - 192) * 64 + (128 + c.toNat % 64 - 128) = c.toNat := by
        omega
      rw [harg, hofn]
    · rw [if_neg h2]
      by_cases h3 : c.toNat < 65536
      · rw [if_pos h3]
        simp only [List.cons_append, List.nil_append]
        rw [utf8DecodeGo_lead3 _ _ (by omega) (by omega) (by omega),
          utf8DecodeGo_cont2, utf8DecodeGo_cont1]
        have harg : ((224 + c.toNat / 4096 - 224) * 64 + (128 + c.toNat / 64 % 64 - 128)) * 64 +
            (128 + c.toNat % 64 - 128) = c.toNat := by
          omega
        rw [harg, hofn]
      · rw [if_neg h3]
        simp only [List.cons_append, List.nil_append]
        rw [utf8DecodeGo_lead4 _ _ (by omega) (by omega) (by omega),
          utf8DecodeGo_cont3, utf8DecodeGo_cont2, utf8DecodeGo_cont1]
        have harg : (((240 + c.toNat / 262144 - 240) * 64 + (128 + c.toNat / 4096 % 64 - 128)) *
              64 + (128 + c.toNat / 64 % 64 - 128)) * 64 + (128 + c.toNat % 64 - 128)
            = c.toNat := by
          omega
        rw [harg, hofn]

theorem utf8Decode_utf8Encode : ∀ cs : List Char, utf8Decode (utf8Encode cs) = cs
  | [] => rfl
  | c :: cs => by
    show utf8DecodeGo 0 0 (utf8Char c ++ utf8Encode cs) = c :: cs
    rw [utf8DecodeGo_utf8Char]
    exact congrArg (c :: ·) (utf8Decode_utf8Encode cs)

set_option maxRecDepth 4000 in
theorem hexVal_hexDigit : ∀ b : Nat, b < 256 →
    hexVal (hexDigit (b / 16)) * 16 + hexVal (hexDigit (b % 16)) = b := by decide

set_option maxRecDepth 4000 in
theorem formSafe_char_spec : ∀ b : Nat, b < 256 → formSafe b = true →
    Char.ofNat b ≠ '+' ∧ Char.ofNat b ≠ '%' ∧ (Char.ofNat b).toNat = b := by decide

set_option maxRecDepth 4000 in
theorem uriSafe_char_spec : ∀ b : Nat, b < 256 → uriSafe b = true →
    Char.ofNat b ≠ '+' ∧ Char.ofNat b ≠ '%' ∧ (Char.ofNat b).toNat = b := by decide

theorem percentDecodeGo_plain (plusSpace : Bool) (c : Char) (cs : List Char)
    (h1 : ¬ (plusSpace = true ∧ c = '+')) (h2 : c ≠ '%') :
    percentDecodeGo plusSpace 0 0 (c :: cs) = c.toNat :: percentDecodeGo plusSpace 0 0 cs := by
  simp [percentDecodeGo, h1, h2]

theorem percentDecodeGo_plus (cs : List Char) :
    percentDecodeGo true 0 0 ('+' :: cs) = 32 :: percentDecodeGo true 0 0 cs := by
  simp [percentDecodeGo]

theorem percentDecodeGo_pct (plusSpace : Bool) (cs : List Char) :
    percentDecodeGo plusSpace 0 0 ('%' :: cs) = percentDecodeGo plusSpace 1 0 cs := by
  simp [percentDecodeGo]

theorem percentDecodeGo_mode1 (plusSpace : Bool) (acc : Nat) (c : Char) (cs : List Char) :
    percentDecodeGo plusSpace 1 acc (c :: cs) = percentDecodeGo plusSpace 2 (hexVal c) cs := by
  simp [percentDecodeGo]

theorem percentDecodeGo_mode2 (plusSpace : Bool) (acc : Nat) (c : Char) (cs : List Char) :
    percentDecodeGo plusSpace 2 acc (c :: cs)
      = (acc * 16 + hexVal c) :: percentDecodeGo plusSpace 0 0 cs := by
  simp [percentDecodeGo]

theorem percentDecodeGo_encodeByte (safe : Nat → Bool) (plusSpace : Bool) (b : Nat)
    (cs : List Char) (hb : b < 256)
    (hsafe : safe b = true →
      Char.ofNat b ≠ '+' ∧ Char.ofNat b ≠ '%' ∧ (Char.ofNat b).toNat = b) :
    percentDecodeGo plusSpace 0 0 (percentEncodeByte safe plusSpace b ++ cs)
      = b :: percentDecodeGo plusSpace 0 0 cs := by
  unfold percentEncodeByte
  by_cases hs : safe b = true
  · obtain ⟨h1, h2, h3⟩ := hsafe hs
    rw [if_pos hs]
    simp only [List.cons_append, List.nil_append]
    rw [percentDecodeGo_plain plusSpace _ _ (by rintro ⟨-, hplus⟩; exact h1 hplus) h2, h3]
  · rw [if_neg hs]
    by_cases hp : plusSpace = true ∧ b = 32
    · rw [if_pos hp]
      simp only [List.cons_append, List.nil_append]
      rw [hp.1, percentDecodeGo_plus, hp.2]
    · rw [if_neg hp]
      simp only [List.cons_append, List.nil_append]
      rw [percentDecodeGo_pct, percentDecodeGo_mode1, percentDecodeGo_mode2]
      rw [hexVal_hexDigit b hb]

theorem percentDecode_encodeBytes (safe : Nat → Bool) (plusSpace : Bool)
    (hsafe : ∀ b : Nat, b < 256 → safe b = true →
      Char.ofNat b ≠ '+' ∧ Char.ofNat b ≠ '%' ∧ (Char.ofNat b).toNat = b) :
    ∀ bs : List Nat, (∀ b ∈ bs, b < 256) →
      percentDecodeGo plusSpace 0 0 (percentEncodeBytes safe plusSpace bs) = bs
  | [], _ => rfl
  | b :: bs, h => by
    simp only [percentEncodeBytes]
    rw [percentDecodeGo_encodeByte safe plusSpace b _ (h b (by simp))
        (hsafe b (h b (by simp))),
      percentDecode_encodeBytes safe plusSpace hsafe bs (fun x hx => h x (by simp [hx]))]

theorem formDecode_formEncode (s : String) : formDecode (formEncode s) = s := by
  obtain ⟨data⟩ := s
  show formDecode ⟨percentEncodeBytes formSafe true (utf8Encode data)⟩ = ⟨data⟩
  unfold formDecode percentDecodeBytes
  rw [show (⟨percentEncodeBytes formSafe true (utf8Encode data)⟩ : String).data
      = percentEncodeBytes formSafe true (utf8Encode data) from rfl]
  rw [percentDecode_encodeBytes formSafe true formSafe_char_spec _ (utf8Encode_mem_lt data)]
  rw [show utf8Decode (utf8Encode data) = data from utf8Decode_utf8Encode data]

theorem decodeURIComponent_encodeURIComponent (s : String) :
    decodeURIComponent (encodeURIComponent s) = s := by
  obtain ⟨data⟩ := s
  show decodeURIComponent ⟨percentEncodeBytes uriSafe false (utf8Encode data)⟩ = ⟨data⟩
  unfold decodeURIComponent percentDecodeBytes
  rw [show (⟨percentEncodeBytes uriSafe false (utf8Encode data)⟩ : String).data
      = percentEncodeBytes uriSafe false (utf8Encode data) from rfl]
  rw [percentDecode_encodeBytes uriSafe false uriSafe_char_spec _ (utf8Encode_mem_lt data)]
  rw [show utf8Decode (utf8Encode data) = data from utf8Decode_utf8Encode data]

/-! ### Decimal representation of natural numbers

Characterization of core `Nat.repr` (the model of JavaScript
`Number.prototype.toString` on the non-negative integers produced by
`Math.floor(Math.random() * 1e7)`). -/

/-- Decimal digit string of `n`, most significant digit first. -/
def digitsRep (n : Nat) : List Char :=
  if n < 10 then [Nat.digitChar n]
  else digitsRep (n / 10) ++ [Nat.digitChar (n % 10)]
termination_by n
decreasing_by exact Nat.div_lt_self (by omega) (by omega)

theorem toDigitsCore_eq_digitsRep :
    ∀ fuel n : Nat, ∀ ds : List Char, n < fuel →
      Nat.toDigitsCore 10 fuel n ds = digitsRep n ++ ds := by
  intro fuel
  induction fuel with
  | zero => omega
  | succ fuel ih =>
    intro n ds hn
    rw [Nat.toDigitsCore]
    by_cases h : n / 10 = 0
    · rw [if_pos h]
      rw [digitsRep, if_pos (by omega)]
      have : n % 10 = n := by omega
      rw [this]
      rfl
    · rw [if_neg h]
      have h10 : 10 ≤ n := by omega
      have hdiv : n / 10 < n := Nat.div_lt_self (by omega) (by omega)
      rw [ih (n / 10) _ (by omega)]
      have hrep : digitsRep n = digitsRep (n / 10) ++ [Nat.digitChar (n % 10)] := by
        rw [digitsRep, if_neg (by omega)]
      rw [hrep, List.append_assoc]
      rfl

theorem natRepr_eq_digitsRep (n : Nat) : Nat.repr n = ⟨digitsRep n⟩ := by
  show (Nat.toDigits 10 n).asString = _
  unfold Nat.toDigits
  rw [toDigitsCore_eq_digitsRep (n + 1) n [] (by omega), List.append_nil]
  rfl

theorem digitChar_digit : ∀ k : Nat, k < 10 →
    48 ≤ (Nat.digitChar k).toNat ∧ (Nat.digitChar k).toNat ≤ 57 := by decide

theorem digitChar_val : ∀ k : Nat, k < 10 → (Nat.digitChar k).toNat - 48 = k := by decide

theorem digitsRep_digits (n : Nat) :
    ∀ c ∈ digitsRep n, 48 ≤ c.toNat ∧ c.toNat ≤ 57 := by
  induction n using Nat.strong_induction_on with
  | _ n ih =>
    intro c hc
    rw [digitsRep] at hc
    by_cases h : n < 10
    · rw [if_pos h] at hc
      simp at hc
      exact hc ▸ digitChar_digit n h
    · rw [if_neg h] at hc
      rcases List.mem_append.mp hc with hc | hc
      · exact ih (n / 10) (Nat.div_lt_self (by omega) (by omega)) c hc
      · simp at hc
        exact hc ▸ digitChar_digit (n % 10) (by omega)

theorem digitsRep_foldl (n : Nat) :
    ∀ a : Nat, (digitsRep n).foldl (fun x c => x * 10 + (c.toNat - 48)) a
      = a * 10 ^ (digitsRep n).length + n := by
  induction n using Nat.strong_induction_on with
  | _ n ih =>
    intro a
    rw [digitsRep]
    by_cases h : n < 10
    · rw [if_pos h]
      simp [List.foldl, digitChar_val n h]
    · rw [if_neg h]
      rw [List.foldl_append, ih (n / 10) (Nat.div_lt_self (by omega) (by omega)) a]
      simp only [List.foldl, List.length_append, List.length_cons, List.length_nil]
      rw [digitChar_val (n % 10) (by omega)]
      have hlen : (digitsRep (n / 10)).length + (0 + 1) = (digitsRep (n / 10)).length + 1 := by
        omega
      rw [hlen, pow_succ]
      have hmod : n / 10 * 10 + n % 10 = n := by omega
      calc (a * 10 ^ (digitsRep (n / 10)).length + n / 10) * 10 + n % 10
          = a * (10 ^ (digitsRep (n / 10)).length * 10) + (n / 10 * 10 + n % 10) := by ring
        _ = a * (10 ^ (digitsRep (n / 10)).length * 10) + n := by rw [hmod]

theorem digitsRep_val (n : Nat) :
    (digitsRep n).foldl (fun x c => x * 10 + (c.toNat - 48)) 0 = n := by
  have h := digitsRep_foldl n 0
  simpa using h

theorem natRepr_injective : Function.Injective Nat.repr := by
  intro m n h
  rw [natRepr_eq_digitsRep, natRepr_eq_digitsRep] at h
  have h2 : digitsRep m = digitsRep n := congrArg String.data h
  rw [← digitsRep_val m, ← digitsRep_val n, h2]

/-! ### Strings built from safe bytes are fixed by `formEncode` -/

theorem utf8Encode_ascii : ∀ cs : List Char, (∀ c ∈ cs, c.toNat < 128) →
    utf8Encode cs = cs.map Char.toNat
  | [], _ => rfl
  | c :: cs, h => by
    simp only [utf8Encode, List.map_cons]
    rw [utf8Char, if_pos (h c (by simp))]
    rw [utf8Encode_ascii cs (fun x hx => h x (by simp [hx]))]
    rfl

theorem percentEncode_safe_map (safe : Nat → Bool) (plusSpace : Bool) :
    ∀ cs : List Char, (∀ c ∈ cs, safe c.toNat = true) →
      percentEncodeBytes safe plusSpace (cs.map Char.toNat) = cs
  | [], _ => rfl
  | c :: cs, h => by
    simp only [List.map_cons, percentEncodeBytes]
    rw [percentEncodeByte, if_pos (h c (by simp)), Char.ofNat_toNat]
    rw [percentEncode_safe_map safe plusSpace cs (fun x hx => h x (by simp [hx]))]
    rfl

theorem formEncode_of_safe (s : String)
    (h : ∀ c ∈ s.data, c.toNat < 128 ∧ formSafe c.toNat = true) :
    formEncode s = s := by
  obtain ⟨data⟩ := s
  show (⟨percentEncodeBytes formSafe true (utf8Encode data)⟩ : String) = ⟨data⟩
  rw [utf8Encode_ascii data (fun c hc => (h c hc).1),
    percentEncode_safe_map formSafe true data (fun c hc => (h c hc).2)]

theorem formEncode_natRepr (p : Nat) : formEncode (Nat.repr p) = Nat.repr p := by
  rw [natRepr_eq_digitsRep]
  apply formEncode_of_safe
  intro c hc
  have hd := digitsRep_digits p c hc
  refine ⟨by omega, ?_⟩
  simp only [formSafe, Bool.or_eq_true, Bool.and_eq_true, decide_eq_true_eq, beq_iff_eq]
  omega

/-! ### String append helpers -/

theorem string_data_append (a b : String) : (a ++ b).data = a.data ++ b.data := by
  cases a; cases b; rfl

theorem string_append_assoc (a b c : String) : a ++ b ++ c = a ++ (b ++ c) := by
  cases a with | mk x =>
  cases b with | mk y =>
  cases c with | mk z =>
  show String.mk ((x ++ y) ++ z) = String.mk (x ++ (y ++ z))
  rw [List.append_assoc]

theorem string_append_left_cancel {a b c : String} (h : a ++ b = a ++ c) : b = c := by
  cases a with | mk x =>
  cases b with | mk y =>
  cases c with | mk z =>
  have h2 : x ++ y = x ++ z := congrArg String.data h
  exact congrArg String.mk (List.append_cancel_left h2)

/-! ### The usher URL builders (`buildLiveUsherURL`, `buildVODUsherURL`)

The `Math.floor(Math.random() * 1e7)` draw performed inside the source
functions is passed as the explicit argument `p`; `mathRandomFloor`
models the draw itself from the `Math.random()` result. -/

/-- Serialization of a `URLSearchParams` object holding the given
key/value pairs in insertion order (`toString`, invoked by the template
literal `${params}` in the source). -/
def urlSearchParamsSerialize (l : List (String × String)) : String :=
  joinAmp (l.map fun kv => formEncode kv.1 ++ "=" ++ formEncode kv.2)
where
  joinAmp : List String → String
    | [] => ""
    | [x] => x
    | x :: xs => x ++ "&" ++ joinAmp xs

/-- The `Math.floor(Math.random() * 1e7)` draw, with `r` the result of
`Math.random()`. -/
def mathRandomFloor (r : ℚ) : Nat :=
  (⌊r * 10000000⌋).toNat

/-- Query parameters of `buildLiveUsherURL` (the `URLSearchParams`
object literal, in insertion order). -/
def liveUsherParams (sig token : String) (p : Nat) : List (String × String) :=
  [("sig", sig), ("token", token), ("player", "twitchweb"), ("allow_source", "true"),
    ("allow_audio_only", "true"), ("playlist_include_framerate", "true"),
    ("reassignments_supported", "true"), ("p", Nat.repr p)]

/-- Embedding of `buildLiveUsherURL(channel, sig, token)`. -/
def buildLiveUsherURL (channel sig token : String) (p : Nat) : String :=
  "https://usher.ttvnw.net/api/channel/hls/" ++ encodeURIComponent channel ++ ".m3u8?"
    ++ urlSearchParamsSerialize (liveUsherParams sig token p)

/-- Query parameters of `buildVODUsherURL` (the `URLSearchParams`
object literal, in insertion order). -/
def vodUsherParams (sig token : String) (p : Nat) : List (String × String) :=
  [("sig", sig), ("token", token), ("player", "twitchweb"), ("allow_source", "true"),
    ("allow_audio_only", "true"), ("p", Nat.repr p)]

/-- Embedding of `buildVODUsherURL(vodId, sig, token)`; the vod id is
interpolated into the path verbatim, without `encodeURIComponent`. -/
def buildVODUsherURL (vodId sig token : String) (p : Nat) : String :=
  "https://usher.ttvnw.net/vod/" ++ vodId ++ ".m3u8?"
    ++ urlSearchParamsSerialize (vodUsherParams sig token p)

theorem mathRandomFloor_lt (r : ℚ) (h0 : 0 ≤ r) (h1 : r < 1) :
    mathRandomFloor r < 10000000 := by
  unfold mathRandomFloor
  have h2 : (⌊r * 10000000⌋ : ℤ) < 10000000 := by
    apply Int.floor_lt.mpr
    push_cast
    nlinarith [h0, h1]
  omega

theorem joinAmp_concat : ∀ (xs : List String) (y : String), xs ≠ [] →
    urlSearchParamsSerialize.joinAmp (xs ++ [y])
      = urlSearchParamsSerialize.joinAmp xs ++ "&" ++ y
  | [], _, h => absurd rfl h
  | [x], y, _ => rfl
  | x1 :: x2 :: xs, y, _ => by
    show x1 ++ "&" ++ urlSearchParamsSerialize.joinAmp ((x2 :: xs) ++ [y])
      = (x1 ++ "&" ++ urlSearchParamsSerialize.joinAmp (x2 :: xs)) ++ "&" ++ y
    rw [joinAmp_concat (x2 :: xs) y (by simp)]
    simp only [string_append_assoc]

theorem serialize_concat (l : List (String × String)) (kv : String × String) (h : l ≠ []) :
    urlSearchParamsSerialize (l ++ [kv])
      = urlSearchParamsSerialize l ++ "&" ++ (formEncode kv.1 ++ "=" ++ formEncode kv.2) := by
  unfold urlSearchParamsSerialize
  rw [List.map_append]
  exact joinAmp_concat _ _ (by simp [h])

/-- Everything in the live usher URL that precedes the decimal value of
the cache-busting parameter `p`. -/
def liveUsherPre (channel sig token : String) : String :=
  "https://usher.ttvnw.net/api/channel/hls/" ++ encodeURIComponent channel ++ ".m3u8?"
    ++ (urlSearchParamsSerialize [("sig", sig), ("token", token), ("player", "twitchweb"),
      ("allow_source", "true"), ("allow_audio_only", "true"),
      ("playlist_include_framerate", "true"), ("reassignments_supported", "true")]
      ++ "&" ++ (formEncode "p" ++ "="))

/-- Everything in the VOD usher URL that precedes the decimal value of
the cache-busting parameter `p`. -/
def vodUsherPre (vodId sig token : String) : String :=
  "https://usher.ttvnw.net/vod/" ++ vodId ++ ".m3u8?"
    ++ (urlSearchParamsSerialize [("sig", sig), ("token", token), ("player", "twitchweb"),
      ("allow_source", "true"), ("allow_audio_only", "true")]
      ++ "&" ++ (formEncode "p" ++ "="))

theorem buildLiveUsherURL_p_suffix (channel sig token : String) (p : Nat) :
    buildLiveUsherURL channel sig token p = liveUsherPre channel sig token ++ Nat.repr p := by
  unfold buildLiveUsherURL liveUsherPre
  have hsplit : liveUsherParams sig token p
      = [("sig", sig), ("token", token), ("player", "twitchweb"), ("allow_source", "true"),
        ("allow_audio_only", "true"), ("playlist_include_framerate", "true"),
        ("reassignments_supported", "true")] ++ [("p", Nat.repr p)] := rfl
  rw [hsplit, serialize_concat _ _ (by simp)]
  show _ ++ _ ++ _ ++ (_ ++ _ ++ (formEncode "p" ++ "=" ++ formEncode (Nat.repr p))) = _
  rw [formEncode_natRepr]
  simp only [string_append_assoc]

theorem buildVODUsherURL_p_suffix (vodId sig token : String) (p : Nat) :
    buildVODUsherURL vodId sig token p = vodUsherPre vodId sig token ++ Nat.repr p := by
  unfold buildVODUsherURL vodUsherPre
  have hsplit : vodUsherParams sig token p
      = [("sig", sig), ("token", token), ("player", "twitchweb"), ("allow_source", "true"),
        ("allow_audio_only", "true")] ++ [("p", Nat.repr p)] := rfl
  rw [hsplit, serialize_concat _ _ (by simp)]
  show _ ++ _ ++ _ ++ (_ ++ _ ++ (formEncode "p" ++ "=" ++ formEncode (Nat.repr p))) = _
  rw [formEncode_natRepr]
  simp only [string_append_assoc]

theorem range_pair_collision_card :
    ((Finset.range 10000000 ×ˢ Finset.range 10000000).filter
      fun q : ℕ × ℕ => q.1 = q.2).card = 10000000 := by
  have hdiag : ((Finset.range 10000000 ×ˢ Finset.range 10000000).filter
      fun q : ℕ × ℕ => q.1 = q.2) = (Finset.range 10000000).diag := by
    ext q
    obtain ⟨a, b⟩ := q
    simp only [Finset.mem_filter, Finset.mem_product, Finset.mem_diag]
    constructor
    · rintro ⟨⟨ha, _⟩, hab⟩
      exact ⟨ha, hab⟩
    · rintro ⟨ha, hab⟩
      exact ⟨⟨ha, hab ▸ ha⟩, hab⟩
  rw [hdiag, Finset.diag_card, Finset.card_range]

/-- C3: `buildLiveUrl` produces the per-channel HLS manifest path with the
channel login percent-encoded as a path segment, `buildVodUrl` the
per-video manifest path with the video id not percent-encoded; both query
strings carry `sig` and `token` verbatim under standard query escaping
(witnessed by the decode round trips), a constant `player=twitchweb`,
`allow_source=true`, `allow_audio_only=true`, and
`playlist_include_framerate=true` / `reassignments_supported=true` in the
live variant only. -/
theorem usherUrl_shape (channel vodId sig token : String) (p : Nat) :
    (buildLiveUsherURL channel sig token p
      = "https://usher.ttvnw.net/api/channel/hls/" ++ encodeURIComponent channel ++ ".m3u8?"
        ++ urlSearchParamsSerialize (liveUsherParams sig token p))
    ∧ (buildVODUsherURL vodId sig token p
      = "https://usher.ttvnw.net/vod/" ++ vodId ++ ".m3u8?"
        ++ urlSearchParamsSerialize (vodUsherParams sig token p))
    ∧ (liveUsherParams sig token p).map Prod.fst
      = ["sig", "token", "player", "allow_source", "allow_audio_only",
        "playlist_include_framerate", "reassignments_supported", "p"]
    ∧ (vodUsherParams sig token p).map Prod.fst
      = ["sig", "token", "player", "allow_source", "allow_audio_only", "p"]
    ∧ ("sig", sig) ∈ liveUsherParams sig token p
    ∧ ("token", token) ∈ liveUsherParams sig token p
    ∧ ("sig", sig) ∈ vodUsherParams sig token p
    ∧ ("token", token) ∈ vodUsherParams sig token p
    ∧ ("player", "twitchweb") ∈ liveUsherParams sig token p
    ∧ ("player", "twitchweb") ∈ vodUsherParams sig token p
    ∧ ("allow_source", "true") ∈ liveUsherParams sig token p
    ∧ ("allow_source", "true") ∈ vodUsherParams sig token p
    ∧ ("allow_audio_only", "true") ∈ liveUsherParams sig token p
    ∧ ("allow_audio_only", "true") ∈ vodUsherParams sig token p
    ∧ ("playlist_include_framerate", "true") ∈ liveUsherParams sig token p
    ∧ ("reassignments_supported", "true") ∈ liveUsherParams sig token p
    ∧ "playlist_include_framerate" ∉ (vodUsherParams sig token p).map Prod.fst
    ∧ "reassignments_supported" ∉ (vodUsherParams sig token p).map Prod.fst
    ∧ formDecode (formEncode sig) = sig
    ∧ formDecode (formEncode token) = token
    ∧ decodeURIComponent (encodeURIComponent channel) = channel := by
  refine ⟨rfl, rfl, rfl, rfl, by simp [liveUsherParams], by simp [liveUsherParams],
    by simp [vodUsherParams], by simp [vodUsherParams], by simp [liveUsherParams],
    by simp [vodUsherParams], by simp [liveUsherParams], by simp [vodUsherParams],
    by simp [liveUsherParams], by simp [vodUsherParams], by simp [liveUsherParams],
    by simp [liveUsherParams], by simp [vodUsherParams], by simp [vodUsherParams],
    formDecode_formEncode sig, formDecode_formEncode token,
    decodeURIComponent_encodeURIComponent channel⟩

/-- C4: two calls of `buildLiveUsherURL` (resp. `buildVODUsherURL`) with
identical channel/vod-id, signature and token agree on everything except
the trailing decimal value of the cache-busting parameter `p`; the `p`
draw `Math.floor(Math.random() * 1e7)` lies in `[0, 10000000)`; distinct
draws give distinct URLs; and exactly `10^7` of the `10^14` equally
likely pairs of draws collide (collision probability `10^-7`). -/
theorem usherUrl_cache_buster (channel vodId sig token : String) (p1 p2 : Nat) (r : ℚ) :
    (∃ pre, buildLiveUsherURL channel sig token p1 = pre ++ Nat.repr p1
      ∧ buildLiveUsherURL channel sig token p2 = pre ++ Nat.repr p2)
    ∧ (∃ pre, buildVODUsherURL vodId sig token p1 = pre ++ Nat.repr p1
      ∧ buildVODUsherURL vodId sig token p2 = pre ++ Nat.repr p2)
    ∧ (p1 ≠ p2 →
      buildLiveUsherURL channel sig token p1 ≠ buildLiveUsherURL channel sig token p2)
    ∧ (p1 ≠ p2 → buildVODUsherURL vodId sig token p1 ≠ buildVODUsherURL vodId sig token p2)
    ∧ (0 ≤ r → r < 1 → mathRandomFloor r < 10000000)
    ∧ ((Finset.range 10000000 ×ˢ Finset.range 10000000).filter
        fun q : ℕ × ℕ => q.1 = q.2).card * 10000000
      = (Finset.range 10000000 ×ˢ Finset.range 10000000).card := by
  refine ⟨⟨liveUsherPre channel sig token, buildLiveUsherURL_p_suffix channel sig token p1,
      buildLiveUsherURL_p_suffix channel sig token p2⟩,
    ⟨vodUsherPre vodId sig token, buildVODUsherURL_p_suffix vodId sig token p1,
      buildVODUsherURL_p_suffix vodId sig token p2⟩, ?_, ?_, ?_, ?_⟩
  · intro hne heq
    rw [buildLiveUsherURL_p_suffix, buildLiveUsherURL_p_suffix] at heq
    exact hne (natRepr_injective (string_append_left_cancel heq))
  · intro hne heq
    rw [buildVODUsherURL_p_suffix, buildVODUsherURL_p_suffix] at heq
    exact hne (natRepr_injective (string_append_left_cancel heq))
  · exact fun h0 h1 => mathRandomFloor_lt r h0 h1
  · rw [range_pair_collision_card, Finset.card_product, Finset.card_range]

/-- Witness for C4 at concrete inputs. -/
theorem usherUrl_cache_buster_witness :
    buildLiveUsherURL "chan" "s" "t" 0 ≠ buildLiveUsherURL "chan" "s" "t" 1
    ∧ buildVODUsherURL "123" "s" "t" 0 ≠ buildVODUsherURL "123" "s" "t" 1
    ∧ mathRandomFloor (1 / 2) < 10000000 :=
  ⟨(usherUrl_cache_buster "chan" "123" "s" "t" 0 1 (1 / 2)).2.2.1 (by decide),
    (usherUrl_cache_buster "chan" "123" "s" "t" 0 1 (1 / 2)).2.2.2.1 (by decide),
    (usherUrl_cache_buster "chan" "123" "s" "t" 0 1 (1 / 2)).2.2.2.2.1 (by norm_num)
      (by norm_num)⟩

/-! ### The Helix app token cache (`getHelixAppToken`)

The module-level slot `helixAppToken` is passed and returned explicitly;
`now` is the `Date.now()` reading of line 29, `now2` the second reading
of line 48; the oauth endpoint's response is an explicit argument. -/

/-- Cached Helix app token (the `helixAppToken` slot): `{token, expiresAt}`. -/
structure AppToken where
  token : String
  expiresAt : Int
deriving DecidableEq

/-- Response of the `https://id.twitch.tv/oauth2/token` fetch: either a
non-ok status, or a parsed JSON body with `access_token` and
`expires_in` (seconds). -/
inductive OAuthResponse where
  | failure (status : Nat)
  | success (accessToken : String) (expiresIn : Int)
deriving DecidableEq

/-- What one `getHelixAppToken()` call does: return a value or throw. -/
inductive TokenOutcome where
  | thrown (msg : String)
  | returned (value : String)
deriving DecidableEq

/-- Full effect of one `getHelixAppToken()` call: outcome, new slot
contents, and the form-encoded body of the outbound fetch when one was
made (`none` = no outbound fetch). -/
structure TokenStep where
  outcome : TokenOutcome
  slot : Option AppToken
  request : Option String
deriving DecidableEq

/-- Form-encoded body of the client-credentials grant
(`new URLSearchParams({client_id, client_secret, grant_type})`). -/
def oauthTokenBody (clientId clientSecret : String) : String :=
  urlSearchParamsSerialize [("client_id", clientId), ("client_secret", clientSecret),
    ("grant_type", "client_credentials")]

/-- The fetch-and-store path of `getHelixAppToken` (lines 32-50). -/
def helixTokenFetch (clientId clientSecret : String) (slot : Option AppToken)
    (resp : OAuthResponse) (now2 : Int) : TokenStep :=
  match resp with
  | .failure status =>
      ⟨.thrown ("oauth token " ++ Nat.repr status), slot,
        some (oauthTokenBody clientId clientSecret)⟩
  | .success tok ei =>
      ⟨.returned tok, some ⟨tok, now2 + ei * 1000⟩,
        some (oauthTokenBody clientId clientSecret)⟩

/-- Embedding of `getHelixAppToken()` (lines 24-51). -/
def getHelixAppToken (clientId clientSecret : String) (slot : Option AppToken)
    (now : Int) (resp : OAuthResponse) (now2 : Int) : TokenStep :=
  if clientId = "" ∨ clientSecret = "" then
    ⟨.thrown "TWITCH_CLIENT_ID and TWITCH_CLIENT_SECRET required for Helix API", slot, none⟩
  else
    match slot with
    | some t =>
      if now < t.expiresAt - 60000 then ⟨.returned t.token, slot, none⟩
      else helixTokenFetch clientId clientSecret slot resp now2
    | none => helixTokenFetch clientId clientSecret slot resp now2

/-- C1: with both credentials configured, a cached token whose expiry is
more than the 60-second margin away is returned unchanged with no
outbound fetch; otherwise a form-encoded client-credentials request is
issued and, on success, the slot is replaced wholesale with the new
token, `expiresAt = now + expires_in * 1000`, and the new token value is
returned. -/
theorem helixAppToken_cache (clientId clientSecret : String) (slot : Option AppToken)
    (now : Int) (resp : OAuthResponse) (now2 : Int)
    (hcid : clientId ≠ "") (hsec : clientSecret ≠ "") :
    (∀ t, slot = some t → now < t.expiresAt - 60000 →
      getHelixAppToken clientId clientSecret slot now resp now2
        = ⟨.returned t.token, slot, none⟩)
    ∧ ((slot = none ∨ ∃ t, slot = some t ∧ ¬ now < t.expiresAt - 60000) →
      ((getHelixAppToken clientId clientSecret slot now resp now2).request
          = some (oauthTokenBody clientId clientSecret)
        ∧ ∀ tok ei, resp = .success tok ei →
          getHelixAppToken clientId clientSecret slot now resp now2
            = ⟨.returned tok, some ⟨tok, now2 + ei * 1000⟩,
                some (oauthTokenBody clientId clientSecret)⟩))
    ∧ oauthTokenBody clientId clientSecret
      = formEncode "client_id" ++ "=" ++ formEncode clientId ++ "&"
        ++ (formEncode "client_secret" ++ "=" ++ formEncode clientSecret) ++ "&"
        ++ (formEncode "grant_type" ++ "=" ++ formEncode "client_credentials") := by
  have hcfg : ¬ (clientId = "" ∨ clientSecret = "") := by
    rintro (h | h) <;> [exact hcid h; exact hsec h]
  refine ⟨?_, ?_, ?_⟩
  case refine_3 =>
    simp only [oauthTokenBody, urlSearchParamsSerialize, urlSearchParamsSerialize.joinAmp,
      List.map, string_append_assoc]
  · intro t ht hlt
    unfold getHelixAppToken
    rw [if_neg hcfg, ht]
    simp only [if_pos hlt]
  · intro hmiss
    have hfetch : getHelixAppToken clientId clientSecret slot now resp now2
        = helixTokenFetch clientId clientSecret slot resp now2 := by
      unfold getHelixAppToken
      rw [if_neg hcfg]
      rcases hmiss with h | ⟨t, ht, hnot⟩
      · rw [h]
      · rw [ht]
        simp only [if_neg hnot]
    refine ⟨?_, ?_⟩
    · rw [hfetch]
      cases resp <;> rfl
    · intro tok ei hresp
      rw [hfetch, hresp]
      rfl

/-- Witness for C1: a cache hit at a concrete state, and a fetch-and-store
at a concrete expired state. -/
theorem helixAppToken_cache_witness :
    getHelixAppToken "id" "sec" (some ⟨"tok", 100000⟩) 0 (.failure 500) 0
      = ⟨.returned "tok", some ⟨"tok", 100000⟩, none⟩
    ∧ getHelixAppToken "id" "sec" none 0 (.success "fresh" 3600) 5
      = ⟨.returned "fresh", some ⟨"fresh", 5 + 3600 * 1000⟩, some (oauthTokenBody "id" "sec")⟩ :=
  ⟨(helixAppToken_cache "id" "sec" (some ⟨"tok", 100000⟩) 0 (.failure 500) 0
      (by decide) (by decide)).1 ⟨"tok", 100000⟩ rfl (by decide),
    ((helixAppToken_cache "id" "sec" none 0 (.success "fresh" 3600) 5
      (by decide) (by decide)).2.1 (Or.inl rfl)).2 "fresh" 3600 rfl⟩

/-- C5 (amended): whenever `getHelixAppToken` returns a token value, the
`expiresAt` stored in the slot is strictly later than the moment of
hand-out — the first clock reading on a cache hit, the second on a fresh
fetch — provided every successful fetch response reports
`expires_in ≥ 1`; with `expires_in = 0` the freshly stored `expiresAt`
equals the hand-out instant (see the counterexample). -/
theorem helixAppToken_expiry_future (clientId clientSecret : String) (slot : Option AppToken)
    (now : Int) (resp : OAuthResponse) (now2 : Int)
    (hpos : ∀ tok ei, resp = .success tok ei → 1 ≤ ei) :
    ((getHelixAppToken clientId clientSecret slot now resp now2).request = none →
      ∀ v, (getHelixAppToken clientId clientSecret slot now resp now2).outcome = .returned v →
      ∃ t, (getHelixAppToken clientId clientSecret slot now resp now2).slot = some t
        ∧ now < t.expiresAt)
    ∧ ((getHelixAppToken clientId clientSecret slot now resp now2).request ≠ none →
      ∀ v, (getHelixAppToken clientId clientSecret slot now resp now2).outcome = .returned v →
      ∃ t, (getHelixAppToken clientId clientSecret slot now resp now2).slot = some t
        ∧ now2 < t.expiresAt) := by
  unfold getHelixAppToken
  by_cases hcfg : clientId = "" ∨ clientSecret = ""
  · rw [if_pos hcfg]
    exact ⟨(fun _ v hv => nomatch hv), (fun _ v hv => nomatch hv)⟩
  · rw [if_neg hcfg]
    have hfetch : ∀ slot0 : Option AppToken,
        (helixTokenFetch clientId clientSecret slot0 resp now2).request ≠ none →
        ∀ v, (helixTokenFetch clientId clientSecret slot0 resp now2).outcome = .returned v →
        ∃ t, (helixTokenFetch clientId clientSecret slot0 resp now2).slot = some t
          ∧ now2 < t.expiresAt := by
      intro slot0 _ v hv
      cases resp with
      | failure status => exact nomatch hv
      | success tok ei =>
        refine ⟨⟨tok, now2 + ei * 1000⟩, rfl, ?_⟩
        have h1 : 1 ≤ ei := hpos tok ei rfl
        show now2 < now2 + ei * 1000
        omega
    have hfetchnone : ∀ slot0 : Option AppToken,
        (helixTokenFetch clientId clientSecret slot0 resp now2).request ≠ none :=
      fun slot0 => by cases resp <;> simp [helixTokenFetch]
    cases slot with
    | none =>
      exact ⟨fun hr => absurd hr (hfetchnone none), fun _ => hfetch none (hfetchnone none)⟩
    | some t =>
      by_cases hlt : now < t.expiresAt - 60000
      · simp only [if_pos hlt]
        refine ⟨?_, ?_⟩
        · intro _ v _
          exact ⟨t, rfl, by omega⟩
        · intro hr
          exact absurd rfl hr
      · simp only [if_neg hlt]
        exact ⟨fun hr => absurd hr (hfetchnone (some t)),
          fun _ => hfetch (some t) (hfetchnone (some t))⟩

/-- Witness for C5 (amended): hand-out on a cache hit and on a fresh
fetch, both with strictly-future expiry. -/
theorem helixAppToken_expiry_future_witness :
    (∃ t, (getHelixAppToken "id" "sec" (some ⟨"tok", 100000⟩) 0 (.failure 500) 7).slot = some t
      ∧ (0 : Int) < t.expiresAt)
    ∧ (∃ t, (getHelixAppToken "id" "sec" none 0 (.success "fresh" 3600) 7).slot = some t
      ∧ (7 : Int) < t.expiresAt) :=
  ⟨(helixAppToken_expiry_future "id" "sec" (some ⟨"tok", 100000⟩) 0 (.failure 500) 7
        (fun tok ei h => nomatch h)).1 rfl "tok" rfl,
    (helixAppToken_expiry_future "id" "sec" none 0 (.success "fresh" 3600) 7
        (fun tok ei h => by injection h with h1 h2; omega)).2 (by decide) "fresh" rfl⟩

/-- Counterexample for C5 as stated: a successful fetch reporting
`expires_in = 0` stores `expiresAt = now`, which is not strictly in the
future at the moment the token is handed out. -/
theorem helixAppToken_expiry_counterexample :
    getHelixAppToken "id" "sec" none 1000 (.success "tok" 0) 1000
      = ⟨.returned "tok", some ⟨"tok", 1000⟩, some (oauthTokenBody "id" "sec")⟩
    ∧ ¬ ((1000 : Int) < 1000) := by
  refine ⟨?_, by omega⟩
  show helixTokenFetch "id" "sec" none (.success "tok" 0) 1000 = _
  show TokenStep.mk (.returned "tok") (some ⟨"tok", 1000 + 0 * 1000⟩) _ = _
  norm_num

/-! ### The playback signers (`getLivePlaybackToken`, `getVODPlaybackToken`)

The GraphQL endpoint's response becomes an explicit argument: either a
non-ok status with its body text, or the parsed JSON data. -/

/-- Parsed token object of the GraphQL response; either field may be
absent. -/
structure GqlTok where
  signature : Option String
  value : Option String
deriving DecidableEq

/-- The `data` object of the GraphQL response. -/
structure GqlData where
  streamPlaybackAccessToken : Option GqlTok
  streamAccessToken : Option GqlTok
  videoPlaybackAccessToken : Option GqlTok
deriving DecidableEq

/-- Response of a `https://gql.twitch.tv/gql` fetch. -/
inductive GqlResponse where
  | notOk (status : Nat) (body : String)
  | ok (data : Option GqlData)
deriving DecidableEq

/-- A signature/value pair (`{sig, token}` in the source). -/
structure PlaybackToken where
  sig : String
  token : String
deriving DecidableEq

/-- JavaScript truthiness of an optional string field: absent and empty
strings are falsy. -/
def truthyStr : Option String → Bool
  | none => false
  | some s => !(s == "")

/-- The lookup `j?.data?.streamPlaybackAccessToken || j?.data?.streamAccessToken`
(an object is truthy whenever present). -/
def liveTokenField (data : Option GqlData) : Option GqlTok :=
  match data.bind GqlData.streamPlaybackAccessToken with
  | some t => some t
  | none => data.bind GqlData.streamAccessToken

/-- The shared tail `if (!tok?.signature || !tok?.value) return null;
return { sig: tok.signature, token: tok.value };`. -/
def playbackFromTok (tok : Option GqlTok) : Except String (Option PlaybackToken) :=
  match tok with
  | none => .ok none
  | some t =>
    match t.signature, t.value with
    | some s, some v => if s = "" ∨ v = "" then .ok none else .ok (some ⟨s, v⟩)
    | some _, none => .ok none
    | none, _ => .ok none

/-- Embedding of `getLivePlaybackToken(channel)` (lines 81-117),
processing the GraphQL response `resp`. -/
def getLivePlaybackToken (channel : String) (resp : GqlResponse) :
    Except String (Option PlaybackToken) :=
  match resp with
  | .notOk status body => .error ("gql " ++ Nat.repr status ++ ": " ++ body)
  | .ok data => playbackFromTok (liveTokenField data)

/-- Embedding of `getVODPlaybackToken(vodId)` (lines 120-156),
processing the GraphQL response `resp`. -/
def getVODPlaybackToken (vodId : String) (resp : GqlResponse) :
    Except String (Option PlaybackToken) :=
  match resp with
  | .notOk status body => .error ("gql " ++ Nat.repr status ++ ": " ++ body)
  | .ok data => playbackFromTok (data.bind GqlData.videoPlaybackAccessToken)

theorem playbackFromTok_falsy (t : GqlTok)
    (h : truthyStr t.signature = false ∨ truthyStr t.value = false) :
    playbackFromTok (some t) = .ok none := by
  obtain ⟨os, ov⟩ := t
  rcases os with _ | s <;> rcases ov with _ | v <;> simp_all [truthyStr, playbackFromTok]

theorem playbackFromTok_ne_error (tok : Option GqlTok) (e : String) :
    playbackFromTok tok ≠ .error e := by
  rcases tok with _ | ⟨os, ov⟩
  · simp [playbackFromTok]
  · rcases os with _ | s <;> rcases ov with _ | v <;> simp [playbackFromTok]
    split <;> simp

/-- C2: a non-2xx signing response makes both signers fail with an error
carrying the upstream status and body; a 2xx response that yields no
truthy signature/value pair makes them return `null` (`ok none`), never
an error. -/
theorem playbackToken_errors (channel vodId : String) (status : Nat) (body : String)
    (data : Option GqlData) :
    getLivePlaybackToken channel (.notOk status body)
      = .error ("gql " ++ Nat.repr status ++ ": " ++ body)
    ∧ getVODPlaybackToken vodId (.notOk status body)
      = .error ("gql " ++ Nat.repr status ++ ": " ++ body)
    ∧ (liveTokenField data = none → getLivePlaybackToken channel (.ok data) = .ok none)
    ∧ (∀ t, liveTokenField data = some t →
        truthyStr t.signature = false ∨ truthyStr t.value = false →
        getLivePlaybackToken channel (.ok data) = .ok none)
    ∧ (data.bind GqlData.videoPlaybackAccessToken = none →
        getVODPlaybackToken vodId (.ok data) = .ok none)
    ∧ (∀ t, data.bind GqlData.videoPlaybackAccessToken = some t →
        truthyStr t.signature = false ∨ truthyStr t.value = false →
        getVODPlaybackToken vodId (.ok data) = .ok none)
    ∧ (∀ e, getLivePlaybackToken channel (.ok data) ≠ .error e)
    ∧ (∀ e, getVODPlaybackToken vodId (.ok data) ≠ .error e) := by
  refine ⟨rfl, rfl, ?_, ?_, ?_, ?_, ?_, ?_⟩
  · intro h
    show playbackFromTok (liveTokenField data) = .ok none
    rw [h]
    rfl
  · intro t ht hfal
    show playbackFromTok (liveTokenField data) = .ok none
    rw [ht]
    exact playbackFromTok_falsy t hfal
  · intro h
    show playbackFromTok (data.bind GqlData.videoPlaybackAccessToken) = .ok none
    rw [h]
    rfl
  · intro t ht hfal
    show playbackFromTok (data.bind GqlData.videoPlaybackAccessToken) = .ok none
    rw [ht]
    exact playbackFromTok_falsy t hfal
  · intro e
    exact playbackFromTok_ne_error (liveTokenField data) e
  · intro e
    exact playbackFromTok_ne_error (data.bind GqlData.videoPlaybackAccessToken) e

/-- Witness for C2: concrete 2xx responses lacking a truthy
signature/value pair yield `null` rather than an error. -/
theorem playbackToken_errors_witness :
    getLivePlaybackToken "chan" (.ok (some ⟨some ⟨none, some "v"⟩, none, none⟩)) = .ok none
    ∧ getVODPlaybackToken "123" (.ok (some ⟨none, none, some ⟨some "s", some ""⟩⟩))
      = .ok none :=
  ⟨(playbackToken_errors "chan" "123" 500 "b"
        (some ⟨some ⟨none, some "v"⟩, none, none⟩)).2.2.2.1
      ⟨none, some "v"⟩ rfl (Or.inl rfl),
    (playbackToken_errors "chan" "123" 500 "b"
        (some ⟨none, none, some ⟨some "s", some ""⟩⟩)).2.2.2.2.2.1
      ⟨some "s", some ""⟩ rfl (Or.inr rfl)⟩

/-! ### Request handlers

Models of the inbound-parameter processing of the three JSON routes, up
to (and identifying) their first outbound call, and of their catch
blocks.  `String.prototype.trim`, `toLowerCase` and `split(',')` are
modelled explicitly (ASCII model of `toLowerCase`). -/

/-- ASCII whitespace, as removed by `String.prototype.trim`. -/
def isJsSpace (c : Char) : Bool :=
  c = ' ' || c = '\t' || c = '\n' || c = '\r'

/-- Model of `String.prototype.trim`. -/
def jsTrim (s : String) : String :=
  ⟨((s.data.dropWhile isJsSpace).reverse.dropWhile isJsSpace).reverse⟩

/-- ASCII lowering of one character (`toLowerCase`). -/
def jsCharLower (c : Char) : Char :=
  if 65 ≤ c.toNat ∧ c.toNat ≤ 90 then Char.ofNat (c.toNat + 32) else c

/-- Model of `String.prototype.toLowerCase` (ASCII range). -/
def jsToLower (s : String) : String :=
  ⟨s.data.map jsCharLower⟩

/-- Helper for `jsSplitComma`: `cur` holds the current field reversed. -/
def jsSplitCommaGo : List Char → List Char → List String
  | [], cur => [⟨cur.reverse⟩]
  | c :: cs, cur =>
    if c = ',' then ⟨cur.reverse⟩ :: jsSplitCommaGo cs []
    else jsSplitCommaGo cs (c :: cur)

/-- Model of `String.prototype.split(',')`; on the empty string it
returns `[""]`, exactly as in JavaScript. -/
def jsSplitComma (s : String) : List String :=
  jsSplitCommaGo s.data []

theorem jsSplitCommaGo_ne_nil : ∀ (l cur : List Char), jsSplitCommaGo l cur ≠ []
  | [], cur => by simp [jsSplitCommaGo]
  | c :: cs, cur => by
    unfold jsSplitCommaGo
    split
    · simp
    · exact jsSplitCommaGo_ne_nil cs _

/-- First action of the `/api/channels` handler (lines 185-199):
`logins = query('logins')?.split(',') || []`, 400 when the array is
empty, otherwise the outbound `callHelix('users', {login: logins})`. -/
inductive ChannelsAction where
  | badRequest
  | callUsers (logins : List String)
deriving DecidableEq

/-- The array `c.req.query('logins')?.split(',') || []`. -/
def channelsLogins (loginsQ : Option String) : List String :=
  match loginsQ with
  | none => []
  | some s => jsSplitComma s

def channelsFirstAction (loginsQ : Option String) : ChannelsAction :=
  if (channelsLogins loginsQ).length = 0 then .badRequest
  else .callUsers (channelsLogins loginsQ)

/-- First action of the `/api/videos/:channel` handler (lines 232-240):
`channel = param?.trim().toLowerCase()`, 400 when falsy, otherwise the
outbound `callHelix('users', {login: [channel]})`. -/
def videosFirstAction (channelParam : Option String) : ChannelsAction :=
  match channelParam with
  | none => .badRequest
  | some s =>
    if jsToLower (jsTrim s) = "" then .badRequest
    else .callUsers [jsToLower (jsTrim s)]

/-- Continuation of `/api/videos/:channel` (lines 240-254) once the
users response arrived: 404 on a missing or empty `data` array, else
the videos lookup `callHelix('videos', {user_id, type: 'archive',
first: '20'})`. -/
structure HelixUser where
  id : String
deriving DecidableEq

inductive VideosOutcome where
  | badRequest
  | notFound
  | callVideos (params : List (String × String))
deriving DecidableEq

def videosFlow (channelParam : Option String) (usersData : Option (List HelixUser)) :
    VideosOutcome :=
  match channelParam with
  | none => .badRequest
  | some s =>
    if jsToLower (jsTrim s) = "" then .badRequest
    else
      match usersData with
      | none => .notFound
      | some [] => .notFound
      | some (u :: _) => .callVideos [("user_id", u.id), ("type", "archive"), ("first", "20")]

/-- First action of the `/hls` handler (lines 265-289):
`channel = query('channel')?.trim().toLowerCase()`,
`vodId = query('vod')?.trim()`; 400 when both are falsy; the vod branch
wins when the vod id is truthy. -/
inductive HlsAction where
  | badRequest
  | signVod (vodId : String)
  | signLive (login : String)
deriving DecidableEq

def hlsFirstAction (channelQ vodQ : Option String) : HlsAction :=
  if truthyStr (channelQ.map fun s => jsToLower (jsTrim s)) = false
      ∧ truthyStr (vodQ.map jsTrim) = false then .badRequest
  else if truthyStr (vodQ.map jsTrim) = true then .signVod ((vodQ.map jsTrim).getD "")
  else .signLive ((channelQ.map fun s => jsToLower (jsTrim s)).getD "")

/-- Catch block of `/api/channels` (lines 222-228): 500, generic
message, `details: e.message`, no stack field. -/
structure ErrorBody where
  error : String
  details : Option String
  stack : Option String
deriving DecidableEq

def channelsCatchResponse (msg : String) : Nat × ErrorBody :=
  (500, ⟨"server error", some msg, none⟩)

/-- Catch block of `/api/videos/:channel` (lines 255-261). -/
def videosCatchResponse (msg : String) : Nat × ErrorBody :=
  (500, ⟨"server error", some msg, none⟩)

/-- Catch block of `/hls` (lines 292-299): the stack is attached only
when `NODE_ENV` is not `production`. -/
def hlsCatchResponse (nodeEnv : Option String) (msg stackTrace : String) : Nat × ErrorBody :=
  (500, ⟨"server error", some msg,
    if nodeEnv = some "production" then none else some stackTrace⟩)

theorem channelsFirstAction_some (s : String) :
    channelsFirstAction (some s) = .callUsers (jsSplitComma s) := by
  unfold channelsFirstAction
  rw [if_neg]
  · rfl
  · have h := jsSplitCommaGo_ne_nil s.data []
    simp only [channelsLogins, jsSplitComma]
    intro hlen
    exact h (List.length_eq_zero.mp hlen)

/-! ### Claims about the handlers -/

/-- C6 (amended): the `/hls` channel and the `/api/videos` channel
parameters are trimmed and lower-cased before the outbound call; the
`/hls` vod parameter is only trimmed (not lower-cased); the
`/api/channels` logins are comma-split and used exactly as received,
with no trimming or lower-casing. -/
theorem target_normalization (s : String) (cq : Option String) :
    (jsToLower (jsTrim s) ≠ "" →
      hlsFirstAction (some s) none = .signLive (jsToLower (jsTrim s)))
    ∧ (jsTrim s ≠ "" → hlsFirstAction cq (some s) = .signVod (jsTrim s))
    ∧ (jsToLower (jsTrim s) ≠ "" →
      videosFirstAction (some s) = .callUsers [jsToLower (jsTrim s)])
    ∧ channelsFirstAction (some s) = .callUsers (jsSplitComma s) := by
  refine ⟨?_, ?_, ?_, channelsFirstAction_some s⟩
  · intro h
    unfold hlsFirstAction
    simp [truthyStr, h]
  · intro h
    unfold hlsFirstAction
    simp [truthyStr, h]
  · intro h
    simp only [videosFirstAction]
    rw [if_neg h]

/-- Witness for C6 (amended) at concrete inputs. -/
theorem target_normalization_witness :
    hlsFirstAction (some " Foo") none = .signLive "foo"
    ∧ hlsFirstAction none (some " AB1") = .signVod "AB1"
    ∧ videosFirstAction (some "ChanNel ") = .callUsers ["channel"]
    ∧ channelsFirstAction (some "A,b") = .callUsers ["A", "b"] :=
  ⟨(target_normalization " Foo" none).1 (by decide),
    (target_normalization " AB1" none).2.1 (by decide),
    (target_normalization "ChanNel " none).2.2.1 (by decide),
    (target_normalization "A,b" none).2.2.2⟩

/-- Counterexample for C6 as stated: the `/api/channels` handler passes
logins to the outbound users call exactly as received — `"FOO "` is
neither trimmed nor lower-cased — and the `/hls` vod id is trimmed but
not lower-cased. -/
theorem target_normalization_counterexample :
    channelsFirstAction (some "FOO ") = .callUsers ["FOO "]
    ∧ "FOO " ≠ jsToLower (jsTrim "FOO ")
    ∧ hlsFirstAction none (some " AB") = .signVod "AB"
    ∧ "AB" ≠ jsToLower "AB" := by
  exact ⟨rfl, by decide, rfl, by decide⟩

/-- C7 (amended): a missing `logins` query parameter makes
`/api/channels` answer 400 before any outbound call (400 is decided
before the users lookup); a present parameter — even the empty string,
which splits to `[""]` — always proceeds to the outbound users call. -/
theorem channels_logins_validation :
    channelsFirstAction none = .badRequest
    ∧ (∀ s, channelsFirstAction (some s) = .callUsers (jsSplitComma s))
    ∧ (∀ s, channelsFirstAction (some s) ≠ .badRequest) := by
  refine ⟨rfl, channelsFirstAction_some, ?_⟩
  intro s h
  rw [channelsFirstAction_some s] at h
  exact ChannelsAction.noConfusion h

/-- Counterexample for C7 as stated: an empty (but present) `logins`
parameter does not produce a 400 — the handler makes an outbound users
call with a single empty login. -/
theorem channels_logins_validation_counterexample :
    channelsFirstAction (some "") = .callUsers [""]
    ∧ channelsFirstAction (some "") ≠ .badRequest := by
  exact ⟨rfl, by decide⟩

/-- C8: whenever the users lookup of `/api/videos/:channel` yields a
missing or empty `data` array, the handler answers 404 and the videos
lookup is never issued. -/
theorem videos_zero_users_404 (channelParam : Option String)
    (usersData : Option (List HelixUser)) (s : String)
    (hc : channelParam = some s) (hne : jsToLower (jsTrim s) ≠ "")
    (hz : usersData = none ∨ usersData = some []) :
    videosFlow channelParam usersData = .notFound
    ∧ ∀ ps, videosFlow channelParam usersData ≠ .callVideos ps := by
  subst hc
  have hmain : videosFlow (some s) usersData = .notFound := by
    simp only [videosFlow]
    rw [if_neg hne]
    rcases hz with h | h <;> rw [h]
  refine ⟨hmain, ?_⟩
  intro ps h
  rw [hmain] at h
  exact VideosOutcome.noConfusion h

/-- Witness for C8 at concrete inputs. -/
theorem videos_zero_users_404_witness :
    videosFlow (some "Chan") none = .notFound
    ∧ videosFlow (some "chan") (some []) = .notFound :=
  ⟨(videos_zero_users_404 (some "Chan") none "Chan" rfl (by decide) (Or.inl rfl)).1,
    (videos_zero_users_404 (some "chan") (some []) "chan" rfl (by decide) (Or.inr rfl)).1⟩

/-- C9 (amended): every catch block answers 500 with the generic message
`server error` and always includes the thrown error's message as
`details`, in production too; only the `/hls` handler attaches a stack
trace, and only when `NODE_ENV` is not `production`. -/
theorem handler_error_responses (nodeEnv : Option String) (msg stackTrace : String) :
    channelsCatchResponse msg = (500, ⟨"server error", some msg, none⟩)
    ∧ videosCatchResponse msg = (500, ⟨"server error", some msg, none⟩)
    ∧ (hlsCatchResponse nodeEnv msg stackTrace).1 = 500
    ∧ (hlsCatchResponse nodeEnv msg stackTrace).2.error = "server error"
    ∧ (hlsCatchResponse nodeEnv msg stackTrace).2.details = some msg
    ∧ (nodeEnv = some "production" → (hlsCatchResponse nodeEnv msg stackTrace).2.stack = none)
    ∧ (nodeEnv ≠ some "production" →
        (hlsCatchResponse nodeEnv msg stackTrace).2.stack = some stackTrace) := by
  refine ⟨rfl, rfl, rfl, rfl, rfl, ?_, ?_⟩
  · intro h
    show (if nodeEnv = some "production" then none else some stackTrace) = none
    rw [if_pos h]
  · intro h
    show (if nodeEnv = some "production" then none else some stackTrace) = some stackTrace
    rw [if_neg h]

/-- Witness for C9 (amended): stack suppressed in production, included
otherwise. -/
theorem handler_error_responses_witness :
    (hlsCatchResponse (some "production") "m" "st").2.stack = none
    ∧ (hlsCatchResponse none "m" "st").2.stack = some "st" :=
  ⟨(handler_error_responses (some "production") "m" "st").2.2.2.2.2.1 rfl,
    (handler_error_responses none "m" "st").2.2.2.2.2.2 (by decide)⟩

/-- Counterexample for C9 as stated: in production mode the error detail
payload (`details: e.message`) is still included, for `/hls` and for
`/api/channels` alike. -/
theorem handler_error_responses_counterexample :
    (hlsCatchResponse (some "production") "boom" "trace").2.details = some "boom"
    ∧ (channelsCatchResponse "boom").2.details = some "boom"
    ∧ some "boom" ≠ (none : Option String) := by
  exact ⟨rfl, rfl, by decide⟩

/-! ### Top-level module evaluation

A small semantics of the module body's statement sequence: each
statement carries the identifiers it reads while executing (closure
bodies are not evaluated at module time and contribute none), and
evaluation stops with a `ReferenceError` at the first statement reading
an identifier bound neither by the imports/host globals nor by an
earlier declaration.  Environment-variable values only flow into
statement *values* (`process.env.X` is a property access, not an
identifier reference), so the reference structure is independent of the
environment configuration.  The hoisted `function` declarations appear
at their textual positions; none is referenced at top level before its
position, so sequential binding is equivalent to hoisting here. -/

/-- One top-level statement: a binding declaration or an expression
statement, with the identifiers it reads when executed. -/
inductive TopStmt where
  | decl (name : String) (refs : List String)
  | expr (refs : List String)
deriving DecidableEq

def stmtRefs : TopStmt → List String
  | .decl _ refs => refs
  | .expr refs => refs

def stmtBinds : TopStmt → Option String
  | .decl n _ => some n
  | .expr _ => none

/-- First identifier of `refs` that is not bound in `env`, if any. -/
def firstUnbound (env : List String) (refs : List String) : Option String :=
  refs.find? (fun r => ! env.contains r)

/-- Run the statement list in order; `ReferenceError` (statement index
and offending identifier) at the first unbound read. -/
def runTopLevel : List String → Nat → List TopStmt → Except (Nat × String) (List String)
  | env, _, [] => .ok env
  | env, i, st :: rest =>
    match firstUnbound env (stmtRefs st) with
    | some ident => .error (i, ident)
    | none =>
      match stmtBinds st with
      | some n => runTopLevel (n :: env) (i + 1) rest
      | none => runTopLevel env (i + 1) rest

/-- Bindings in scope when the module body starts: the three imports of
lines 1-3 and the host globals the statements read. -/
def initialEnv : List String :=
  ["Hono", "serve", "cors", "process", "console"]

/-- The top-level statements of `src/server.js`, in source order, with
the identifiers each reads during module evaluation.  The startup banner
(lines 360-372) reads `PORT` and `TWITCH_CLIENT_ID`; the `serve` call
(lines 374-377) follows it. -/
def serverModuleStmts : List TopStmt :=
  [.decl "PORT" ["process"],
    .decl "GQL_CLIENT_ID" ["process"],
    .decl "HELIX_CLIENT_ID" ["process"],
    .decl "HELIX_CLIENT_SECRET" ["process"],
    .decl "app" ["Hono"],
    .expr ["app", "cors"],
    .decl "helixAppToken" [],
    .decl "getHelixAppToken" [],
    .decl "callHelix" [],
    .decl "getLivePlaybackToken" [],
    .decl "getVODPlaybackToken" [],
    .decl "buildLiveUsherURL" [],
    .decl "buildVODUsherURL" [],
    .expr ["app"],
    .expr ["app"],
    .expr ["app"],
    .expr ["app"],
    .expr ["app"],
    .expr ["console", "PORT", "TWITCH_CLIENT_ID"],
    .expr ["serve", "app", "PORT"]]

/-- C10: module evaluation reaches the startup banner, whose template
literal reads the identifier `TWITCH_CLIENT_ID`; that identifier is
bound nowhere in the module (the constant is named `HELIX_CLIENT_ID`),
so evaluation throws a `ReferenceError` at the banner (statement 18),
before the `serve` call (statement 19) — the server never starts
listening, for every environment-variable configuration. -/
theorem startup_reference_error :
    runTopLevel initialEnv 0 serverModuleStmts = .error (18, "TWITCH_CLIENT_ID")
    ∧ serverModuleStmts.get? 18 = some (.expr ["console", "PORT", "TWITCH_CLIENT_ID"])
    ∧ serverModuleStmts.get? 19 = some (.expr ["serve", "app", "PORT"])
    ∧ serverModuleStmts.get? 2 = some (.decl "HELIX_CLIENT_ID" ["process"])
    ∧ (∀ env, runTopLevel initialEnv 0 serverModuleStmts ≠ .ok env)
    ∧ "TWITCH_CLIENT_ID" ∉ initialEnv
    ∧ (∀ st ∈ serverModuleStmts, stmtBinds st ≠ some "TWITCH_CLIENT_ID") := by
  have hrun : runTopLevel initialEnv 0 serverModuleStmts
      = .error (18, "TWITCH_CLIENT_ID") := by rfl
  refine ⟨hrun, rfl, rfl, rfl, ?_, by decide, by decide⟩
  intro env h
  rw [hrun] at h
  exact Except.noConfusion h

end TwitchProxy
